import Mathlib

/-!
# Verification of the `SfEval` UCI session controller (stockfish-kit)

A shallow embedding of `src/sfeval.ts`.  The mutable class `SfEval` becomes a
record `EngineState`; every method becomes a pure function
`EngineState → EngineState × List Effect`, where `Effect` records the
observable actions (worker `postMessage`, analysis callback invocation,
error callback invocation, worker `terminate`, worker creation).

Raw protocol lines are modelled as whitespace-token lists (`List String`);
the regex scans of `parseInfoLine` become token scans with the same
first-match semantics (`\bkey\s+(\d+)` = first `key` token followed by a
token with a leading integer, continuing the scan otherwise).

The JavaScript `Map<number, AnalysisLine>` becomes an association list with
insertion-order semantics (`set` overwrites in place, new keys append),
matching iteration order of `Map.prototype.values`.
-/

namespace SfEval

/-- `AnalysisLine` from `types.ts`: one MultiPV line. -/
structure AnalysisLine where
  depth : Nat
  score : Option Int
  mate : Option Int
  pv : List String
  multipv : Nat
  deriving Repr, DecidableEq

/-- `AnalysisInfo` from `types.ts`. `lines` is `none` when the optional
field is absent. -/
structure AnalysisInfo where
  depth : Nat
  score : Option Int
  mate : Option Int
  pv : List String
  bestMove : Option String
  fen : Option String
  lines : Option (List AnalysisLine) := none
  deriving Repr, DecidableEq

/-- `INITIAL_ANALYSIS` from `types.ts`. -/
def INITIAL_ANALYSIS : AnalysisInfo :=
  { depth := 0, score := none, mate := none, pv := [], bestMove := none,
    fen := none, lines := none }

/-- Observable actions of the controller: worker `postMessage`,
`onAnalysisUpdate` / `onError` callback invocations, worker `terminate`,
and worker creation (`new Worker`). -/
inductive Effect where
  | send (cmd : String)
  | emitAnalysis (a : AnalysisInfo)
  | emitError (msg : String)
  | terminate
  | createWorker
  deriving Repr, DecidableEq

/-- The mutable fields of the `SfEval` class.  `hasWorker` models
`worker !== null`, `hasOnReady` models `onReady !== null`,
`hasInitPromise` models `initPromise !== null`, and
`hasOnAnalysisUpdate` / `hasOnError` model the presence of the
registered callbacks. -/
structure EngineState where
  multiPV : Nat
  stableDepthThreshold : Nat
  hasWorker : Bool
  isReady : Bool
  isDestroyed : Bool
  isAnalyzing : Bool
  isWaitingForBestmove : Bool
  isWaitingForReady : Bool
  pendingAnalysisData : AnalysisInfo
  hasReachedStableDepth : Bool
  multiPvLines : List (Nat × AnalysisLine)
  hasOnReady : Bool
  pendingAnalysis : Option (String × Nat)
  pendingSetOption : Option (String × String)
  restoreAnalysisAfterOption : Option (String × Nat)
  hasInitPromise : Bool
  hasOnAnalysisUpdate : Bool
  hasOnError : Bool
  deriving Repr, DecidableEq

/-- The state built by the constructor: `multiPV` and
`stableDepthThreshold` clamped with `Math.max(1, …)`, everything else at
its field initializer. -/
def initialState (multiPVOpt stableDepthThresholdOpt : Nat)
    (hasOnAnalysisUpdate hasOnError : Bool) : EngineState :=
  { multiPV := max 1 multiPVOpt
    stableDepthThreshold := max 1 stableDepthThresholdOpt
    hasWorker := false
    isReady := false
    isDestroyed := false
    isAnalyzing := false
    isWaitingForBestmove := false
    isWaitingForReady := false
    pendingAnalysisData := INITIAL_ANALYSIS
    hasReachedStableDepth := false
    multiPvLines := []
    hasOnReady := false
    pendingAnalysis := none
    pendingSetOption := none
    restoreAnalysisAfterOption := none
    hasInitPromise := false
    hasOnAnalysisUpdate := hasOnAnalysisUpdate
    hasOnError := hasOnError }

/-- `s.startsWith(p)`, computed structurally on the character lists. -/
def strStartsWith (s p : String) : Bool :=
  p.toList.isPrefixOf s.toList

/-- `send(command)`: blocked when destroyed or the worker is gone,
otherwise a `postMessage`. -/
def sendCmd (s : EngineState) (cmd : String) : List Effect :=
  if s.isDestroyed || !s.hasWorker then [] else [Effect.send cmd]

/-- `Map.prototype.get`. -/
def mapGet (k : Nat) : List (Nat × AnalysisLine) → Option AnalysisLine
  | [] => none
  | (k', v) :: rest => if k' = k then some v else mapGet k rest

/-- `Map.prototype.set`: overwrite in place, append when the key is new
(JavaScript `Map` keeps insertion order). -/
def mapSet (k : Nat) (v : AnalysisLine) :
    List (Nat × AnalysisLine) → List (Nat × AnalysisLine)
  | [] => [(k, v)]
  | (k', v') :: rest =>
    if k' = k then (k, v) :: rest else (k', v') :: mapSet k v rest

/-- Is every character of the (nonempty) string a decimal digit?  Models a
token on which `\d+` matches from its start and covers it entirely. -/
def isDigits (t : String) : Bool :=
  !t.isEmpty && t.toList.all (fun c => c.isDigit)

/-- The value of an all-digit token, as `parseInt(, 10)` would read it. -/
def digitsVal (t : String) : Nat :=
  t.toList.foldl (fun acc c => acc * 10 + (c.toNat - 48)) 0

/-- `/\bKEY\s+(\d+)/`: first `key` token followed by a digit token; when
the following token is not numeric the regex engine keeps scanning for a
later occurrence of `key`, and so do we. -/
def findKeyNat (key : String) : List String → Option Nat
  | [] => none
  | t :: rest =>
    if t = key then
      match rest with
      | v :: _ => if isDigits v then some (digitsVal v) else findKeyNat key rest
      | [] => none
    else findKeyNat key rest

/-- A signed integer token, as matched by `(-?\d+)`. -/
def isSignedDigits (t : String) : Bool :=
  isDigits t || (strStartsWith t "-" && isDigits (t.drop 1))

/-- Value of a signed all-digit token. -/
def signedVal (t : String) : Int :=
  if strStartsWith t "-" then -(digitsVal (t.drop 1) : Int) else (digitsVal t : Int)

/-- Result of `/\bscore\s+(cp|mate)\s+(-?\d+)(?:\s+(lowerbound|upperbound))?/`:
`isCp` is whether group 1 was `cp`, `value` is group 2, `bound` is whether
group 3 matched. -/
structure ScoreMatch where
  isCp : Bool
  value : Int
  bound : Bool
  deriving Repr, DecidableEq

/-- Scan for the score pattern, resuming on a partial mismatch just as the
regex engine would. -/
def findScore : List String → Option ScoreMatch
  | [] => none
  | t :: rest =>
    if t = "score" then
      match rest with
      | kind :: v :: after =>
        if (kind = "cp" || kind = "mate") && isSignedDigits v then
          some { isCp := kind = "cp", value := signedVal v,
                 bound := match after with
                          | b :: _ => b = "lowerbound" || b = "upperbound"
                          | [] => false }
        else findScore rest
      | _ => findScore rest
    else findScore rest

/-- `/\bpv\s+(.+)/` followed by `.trim().split(/\s+/).slice(0, 10)`:
everything after the first `pv` token, capped at 10 moves; an absent or
trailing `pv` yields the empty sequence. -/
def findPv : List String → List String
  | [] => []
  | t :: rest =>
    if t = "pv" then
      match rest with
      | [] => []
      | moves => moves.take 10
    else findPv rest

/-- The parsing phase of `parseInfoLine`, after the waiting-state guards:
`none` models every early `return` (no depth, no score, or an aspiration
window bound). -/
structure ParsedInfo where
  depth : Nat
  multipv : Nat
  score : Option Int
  mate : Option Int
  pv : List String
  deriving Repr, DecidableEq

/-- Extract the progress record from an info token list, or `none` when
the line is skipped (missing depth, missing score, or bound score). -/
def parseInfoTokens (tokens : List String) : Option ParsedInfo :=
  match findKeyNat "depth" tokens with
  | none => none
  | some depth =>
    match findScore tokens with
    | none => none
    | some sm =>
      if sm.bound then none
      else
        let multipv := (findKeyNat "multipv" tokens).getD 1
        some { depth := depth
               multipv := multipv
               score := if sm.isCp then some sm.value else none
               mate := if sm.isCp then none else some sm.value
               pv := findPv tokens }

/-- The `AnalysisLine` record stored by `parseInfoLine` for one parsed
progress event (`{ depth, score, mate, pv, multipv }`). -/
def lineOf (pi : ParsedInfo) : AnalysisLine :=
  { depth := pi.depth, score := pi.score, mate := pi.mate,
    pv := pi.pv, multipv := pi.multipv }

/-- Insert into an ascending-by-`multipv` list, after existing equal keys
(keeps the sort stable, as `Array.prototype.sort` is). -/
def insertByMultipv (x : AnalysisLine) : List AnalysisLine → List AnalysisLine
  | [] => [x]
  | y :: ys =>
    if x.multipv < y.multipv then x :: y :: ys else y :: insertByMultipv x ys

/-- `Array.from(map.values()).sort((a, b) => a.multipv - b.multipv)`:
a stable sort ascending by `multipv`. -/
def sortByMultipv (ls : List AnalysisLine) : List AnalysisLine :=
  ls.foldl (fun acc x => insertByMultipv x acc) []

/-- Do all records of the map share `d` as their depth?  (The
`allSameDepth` loop of `parseInfoLine`.) -/
def allDepthsEq (m : List (Nat × AnalysisLine)) (d : Nat) : Bool :=
  m.all (fun p => p.2.depth = d)

/-- `parseInfoLine`: skip diagnostic strings, drop stale lines while
transitioning, otherwise update the MultiPV map, mirror rank 1 into the
pending analysis, latch stability, and emit when stable with all
configured ranks at one depth. -/
def parseInfoLine (s : EngineState) (tokens : List String) :
    EngineState × List Effect :=
  -- `line.startsWith('info string')`
  if tokens.take 2 = ["info", "string"] then (s, [])
  else if s.isWaitingForBestmove || s.isWaitingForReady then (s, [])
  else
    match parseInfoTokens tokens with
    | none => (s, [])
    | some pi =>
      let lines := mapSet pi.multipv (lineOf pi) s.multiPvLines
      let s := { s with multiPvLines := lines }
      match mapGet 1 lines with
      | none => (s, [])
      | some mainLine =>
        let pad := { s.pendingAnalysisData with
                     depth := mainLine.depth, score := mainLine.score,
                     mate := mainLine.mate, pv := mainLine.pv }
        let s := { s with pendingAnalysisData := pad }
        let s := if !s.hasReachedStableDepth &&
                    decide (mainLine.depth ≥ s.stableDepthThreshold)
                 then { s with hasReachedStableDepth := true } else s
        if s.hasReachedStableDepth && decide (lines.length ≥ s.multiPV) &&
           allDepthsEq lines mainLine.depth then
          let pad2 := { s.pendingAnalysisData with
                        lines := some (sortByMultipv (lines.map Prod.snd)) }
          let s := { s with pendingAnalysisData := pad2 }
          (s, if s.hasOnAnalysisUpdate then [Effect.emitAnalysis pad2] else [])
        else (s, [])

/-- The no-move sentinels recognized by `parseBestMove`: Stockfish emits
`bestmove (none)` for checkmate/stalemate or a spurious stop. -/
def isNoMoveSentinel (m : String) : Bool :=
  m = "(none)" || m = "null" || m = "0000"

/-- `parseBestMove`: `/^bestmove\s+(\S+)/` matches exactly when the first
token is `bestmove` and a move token follows.  A `(none)`/`null`/`0000`
sentinel only clears `isAnalyzing`; a real move is attached and emitted
when stable depth was reached. -/
def parseBestMove (s : EngineState) (tokens : List String) :
    EngineState × List Effect :=
  match tokens with
  | "bestmove" :: move :: _ =>
    if isNoMoveSentinel move then
      ({ s with isAnalyzing := false }, [])
    else
      let pad := { s.pendingAnalysisData with bestMove := some move }
      let s := { s with pendingAnalysisData := pad }
      let effs := if s.hasReachedStableDepth && s.hasOnAnalysisUpdate then
                    [Effect.emitAnalysis pad]
                  else []
      ({ s with isAnalyzing := false }, effs)
  | _ => ({ s with isAnalyzing := false }, [])

/-- The `readyok` branch of `handleMessage`: drain a pending `setoption`
(re-synchronizing afterwards, restoring an interrupted analysis when no
newer one superseded it), else start a pending analysis and fire the
one-shot init callback. -/
def handleReadyok (s : EngineState) : EngineState × List Effect :=
  let s := { s with isWaitingForReady := false }
  match s.pendingSetOption with
  | some nv =>
    let s := { s with pendingSetOption := none }
    let e1 := sendCmd s ("setoption name " ++ nv.1 ++ " value " ++ nv.2)
    let s := if s.restoreAnalysisAfterOption.isSome && s.pendingAnalysis.isNone
             then { s with pendingAnalysis := s.restoreAnalysisAfterOption }
             else s
    let s := { s with restoreAnalysisAfterOption := none,
                      isWaitingForReady := true }
    (s, e1 ++ sendCmd s "isready")
  | none =>
    let (s, es) :=
      match s.pendingAnalysis with
      | some fd =>
        let s := { s with pendingAnalysis := none
                          pendingAnalysisData :=
                            { INITIAL_ANALYSIS with fen := some fd.1 }
                          hasReachedStableDepth := false
                          multiPvLines := [] }
        let e1 := sendCmd s ("position fen " ++ fd.1)
        let s := { s with isAnalyzing := true }
        (s, e1 ++ sendCmd s ("go depth " ++ toString fd.2))
      | none => (s, [])
    -- fire and clear the one-shot init callback (the `init` closure sets
    -- `isReady := true` and resolves the promise)
    if s.hasOnReady then
      ({ s with hasOnReady := false, isReady := true }, es)
    else (s, es)

/-- `handleMessage`: dispatch one received line by its leading token. -/
def handleMessage (s : EngineState) (tokens : List String) :
    EngineState × List Effect :=
  if tokens = ["uciok"] then
    (s, sendCmd s ("setoption name MultiPV value " ++ toString s.multiPV)
        ++ sendCmd s "isready")
  else if tokens = ["readyok"] then handleReadyok s
  else if strStartsWith (tokens.headD "") "error:" then
    (s, if s.hasOnError then [Effect.emitError (String.intercalate " " tokens)]
        else [])
  else if strStartsWith (tokens.headD "") "info" then parseInfoLine s tokens
  else if strStartsWith (tokens.headD "") "bestmove" then
    if s.isWaitingForBestmove then
      let s := { s with isWaitingForBestmove := false, isAnalyzing := false,
                        isWaitingForReady := true }
      (s, sendCmd s "isready")
    else parseBestMove s tokens
  else (s, [])

/-- `Math.max(1, Math.min(100, maxDepth))`. -/
def clampDepth (d : Nat) : Nat := max 1 (min 100 d)

/-- `analyze(fen, maxDepth = 25)`. -/
def analyze (s : EngineState) (fen : String) (maxDepth : Nat) :
    EngineState × List Effect :=
  let clampedDepth := clampDepth maxDepth
  if !s.isReady || !s.hasWorker || s.isDestroyed then (s, [])
  else
    let s := { s with pendingAnalysis := some (fen, clampedDepth) }
    if s.isWaitingForReady || s.isWaitingForBestmove then (s, [])
    else if s.isAnalyzing then
      let s := { s with isWaitingForBestmove := true }
      (s, sendCmd s "stop")
    else
      let s := { s with isWaitingForReady := true }
      (s, sendCmd s "isready")

/-- `stop()`. -/
def stop (s : EngineState) : EngineState × List Effect :=
  let s := { s with pendingAnalysis := none, pendingSetOption := none,
                    restoreAnalysisAfterOption := none, multiPvLines := [] }
  if !s.isDestroyed && (s.isAnalyzing || s.isWaitingForBestmove) then
    let s := { s with isWaitingForBestmove := true }
    let es := sendCmd s "stop"
    ({ s with isAnalyzing := false, isWaitingForReady := false }, es)
  else
    ({ s with isWaitingForBestmove := false, isAnalyzing := false,
              isWaitingForReady := false }, [])

/-- `parseInt(String(value), 10)` on an option value: the leading
(optionally signed) digit prefix, `NaN` (here `none`) without one. -/
def jsParseInt (v : String) : Option Int :=
  let core (t : String) : Option Nat :=
    let ds := t.toList.takeWhile (fun c => c.isDigit)
    if ds.isEmpty then none
    else some (ds.foldl (fun acc c => acc * 10 + (c.toNat - 48)) 0)
  if strStartsWith v "-" then (core (v.drop 1)).map (fun n => -(n : Int))
  else core v

/-- `setOption(name, value)` (the value modelled in its string form). -/
def setOption (s : EngineState) (name value : String) :
    EngineState × List Effect :=
  if !s.isReady || s.isDestroyed then (s, [])
  else
    let s :=
      if name = "MultiPV" then
        match jsParseInt value with
        | some n => if n ≥ 1 then { s with multiPV := n.toNat } else s
        | none => s
      else s
    if !s.isAnalyzing && !s.isWaitingForBestmove && !s.isWaitingForReady then
      let e1 := sendCmd s ("setoption name " ++ name ++ " value " ++ value)
      let s := { s with isWaitingForReady := true }
      (s, e1 ++ sendCmd s "isready")
    else
      let s := { s with pendingSetOption := some (name, value) }
      if s.isAnalyzing && !s.isWaitingForBestmove then
        let s :=
          match s.pendingAnalysis, s.pendingAnalysisData.fen with
          | none, some f => { s with restoreAnalysisAfterOption := some (f, 25) }
          | _, _ => s
        let s := { s with isWaitingForBestmove := true }
        (s, sendCmd s "stop")
      else (s, [])

/-- `terminateWorker()`: a no-op without a worker, otherwise one
`terminate()` and the reference released. -/
def terminateWorker (s : EngineState) : EngineState × List Effect :=
  if !s.hasWorker then (s, [])
  else ({ s with hasWorker := false }, [Effect.terminate])

/-- `destroy()`. -/
def destroy (s : EngineState) : EngineState × List Effect :=
  let s := { s with isDestroyed := true }
  let (s, es) := terminateWorker s
  ({ s with isReady := false, isAnalyzing := false,
            isWaitingForBestmove := false, isWaitingForReady := false,
            hasReachedStableDepth := false, pendingAnalysis := none,
            pendingSetOption := none, restoreAnalysisAfterOption := none,
            pendingAnalysisData := INITIAL_ANALYSIS, multiPvLines := [],
            hasOnAnalysisUpdate := false, hasOnReady := false,
            hasOnError := false, hasInitPromise := false }, es)

/-- `init()` (the success path of the promise executor, which runs
synchronously: create the worker, register the one-shot ready callback,
send `uci`). -/
def init (s : EngineState) : EngineState × List Effect :=
  if s.isReady && s.hasWorker && !s.isDestroyed then (s, [])
  else if s.hasInitPromise then (s, [])
  else
    let s := { s with isDestroyed := false }
    let s := { s with hasInitPromise := true, hasWorker := true,
                      hasOnReady := true }
    (s, [Effect.createWorker] ++ sendCmd s "uci")

/-- One external event: a public method call or one line delivered by the
worker's `onmessage` handler. -/
inductive Ev where
  | callInit
  | callAnalyze (fen : String) (maxDepth : Nat)
  | callSetOption (name value : String)
  | callStop
  | callDestroy
  | recvLine (tokens : List String)
  deriving Repr, DecidableEq

/-- Dispatch one event.  A received line is dropped when the worker is
gone or the controller destroyed (`onmessage` is nulled on terminate and
guarded by `isDestroyed`). -/
def step (s : EngineState) : Ev → EngineState × List Effect
  | Ev.callInit => init s
  | Ev.callAnalyze fen maxDepth => analyze s fen maxDepth
  | Ev.callSetOption name value => setOption s name value
  | Ev.callStop => stop s
  | Ev.callDestroy => destroy s
  | Ev.recvLine tokens =>
    if s.isDestroyed || !s.hasWorker then (s, [])
    else handleMessage s tokens

/-- Run a sequence of events, accumulating the effects in order. -/
def run (s : EngineState) : List Ev → EngineState × List Effect
  | [] => (s, [])
  | e :: rest =>
    let (s1, es1) := step s e
    let (s2, es2) := run s1 rest
    (s2, es1 ++ es2)

/-- Count the analysis-callback invocations in an effect list. -/
def countEmits (es : List Effect) : Nat :=
  es.countP (fun e => match e with | Effect.emitAnalysis _ => true | _ => false)

/-- Count the `terminate()` calls in an effect list. -/
def countTerminates (es : List Effect) : Nat :=
  es.countP (fun e => match e with | Effect.terminate => true | _ => false)

/-- Count the sends of one exact command. -/
def countSendsOf (cmd : String) (es : List Effect) : Nat :=
  es.countP (fun e => match e with | Effect.send c => c = cmd | _ => false)

/-- Is the effect a `position …` command? -/
def isPositionCmd (e : Effect) : Bool :=
  match e with
  | Effect.send c => strStartsWith c "position"
  | _ => false

/-- `getIsReady()`. -/
def getIsReady (s : EngineState) : Bool :=
  s.isReady && !s.isDestroyed

/-- `getIsDestroyed()`. -/
def getIsDestroyed (s : EngineState) : Bool :=
  s.isDestroyed

/-- The normal form `destroy()` leaves behind: only the configuration
fields survive; every flag, queue, table and callback is cleared and the
worker reference released. -/
def destroyedState (s : EngineState) : EngineState :=
  { multiPV := s.multiPV
    stableDepthThreshold := s.stableDepthThreshold
    hasWorker := false
    isReady := false
    isDestroyed := true
    isAnalyzing := false
    isWaitingForBestmove := false
    isWaitingForReady := false
    pendingAnalysisData := INITIAL_ANALYSIS
    hasReachedStableDepth := false
    multiPvLines := []
    hasOnReady := false
    pendingAnalysis := none
    pendingSetOption := none
    restoreAnalysisAfterOption := none
    hasInitPromise := false
    hasOnAnalysisUpdate := false
    hasOnError := false }

/-- The init handshake as an event prefix: `init()` call, then `uciok`
and `readyok` from the engine. -/
def initTrace : List Ev :=
  [Ev.callInit, Ev.recvLine ["uciok"], Ev.recvLine ["readyok"]]

/-- A ready idle engine with MultiPV `R`, stability threshold `T` and both
callbacks registered. -/
def readyState (R T : Nat) : EngineState :=
  (run (initialState R T true true) initTrace).1

/-- A ready engine searching position `F` (requested with depth limit 40),
after one accepted progress event at depth 5. -/
def searchingState : EngineState :=
  (run (initialState 1 12 true true)
    (initTrace ++
     [Ev.callAnalyze "F" 40, Ev.recvLine ["readyok"],
      Ev.recvLine ["info", "depth", "5", "multipv", "1", "score", "cp", "30"]])).1

/-- Trace for the stability counterexample: reach stable depth 12, then
receive a progress event that has dropped back to depth 5. -/
def stickyDepthTrace : List Ev :=
  initTrace ++
  [Ev.callAnalyze "F" 25, Ev.recvLine ["readyok"],
   Ev.recvLine ["info", "depth", "12", "multipv", "1", "score", "cp", "30",
                "pv", "e2e4"]]

/-- The late low-depth progress line of the stability counterexample. -/
def lowDepthTokens : List String :=
  ["info", "depth", "5", "multipv", "1", "score", "cp", "10", "pv", "e2e4"]

/-- Trace for the rank-count counterexample: a rank target of 2, with
ranks 1 and 2 already held at depth 3. -/
def overfullRankTrace : List Ev :=
  initTrace ++
  [Ev.callAnalyze "F" 25, Ev.recvLine ["readyok"],
   Ev.recvLine ["info", "depth", "3", "multipv", "1", "score", "cp", "30"],
   Ev.recvLine ["info", "depth", "3", "multipv", "2", "score", "cp", "20"]]

/-- The third-rank progress line of the rank-count counterexample. -/
def thirdRankTokens : List String :=
  ["info", "depth", "3", "multipv", "3", "score", "cp", "10"]

/-- Trace for the resume-depth counterexample: analyze `F` with depth
limit 40, interrupt with an option change, and let the engine drain the
stop and both synchronizations. -/
def resumeDepthTrace : List Ev :=
  initTrace ++
  [Ev.callAnalyze "F" 40, Ev.recvLine ["readyok"],
   Ev.recvLine ["info", "depth", "5", "multipv", "1", "score", "cp", "30"],
   Ev.callSetOption "Hash" "256",
   Ev.recvLine ["bestmove", "e2e4"], Ev.recvLine ["readyok"],
   Ev.recvLine ["readyok"]]

/-- Trace for the stale-bestmove counterexample: reach stable depth, then
interrupt with an option change and consume the stop's `bestmove`, leaving
the controller waiting only for `readyok`. -/
def staleBestmoveTrace : List Ev :=
  initTrace ++
  [Ev.callAnalyze "F" 25, Ev.recvLine ["readyok"],
   Ev.recvLine ["info", "depth", "12", "multipv", "1", "score", "cp", "30"],
   Ev.callSetOption "Threads" "4",
   Ev.recvLine ["bestmove", "e2e4"]]

/-- The engine after `stickyDepthTrace`: idle flags, stability latched at
depth 12, MultiPV 1, threshold 12. -/
def stableState : EngineState :=
  (run (initialState 1 12 true true) stickyDepthTrace).1

/-- The engine after `overfullRankTrace`: rank target 2, ranks 1 and 2
held at depth 3, stability latched (threshold 1). -/
def overfullState : EngineState :=
  (run (initialState 2 1 true true) overfullRankTrace).1

/-- The engine after `staleBestmoveTrace`: waiting only for `readyok`
(`isWaitingForBestmove` already consumed), stability still latched. -/
def staleState : EngineState :=
  (run (initialState 1 12 true true) staleBestmoveTrace).1

/-- A searching engine interrupted by an option change: waiting for the
`bestmove` that acknowledges the `stop`. -/
def stoppingState : EngineState :=
  (run (initialState 1 12 true true)
    (initTrace ++
     [Ev.callAnalyze "F" 25, Ev.recvLine ["readyok"],
      Ev.callSetOption "Threads" "4"])).1

/-- A searching engine with a superseding `analyze("G", 30)` queued. -/
def queuedState : EngineState :=
  (step searchingState (Ev.callAnalyze "G" 30)).1

/-- A busy engine with an analyze pending: `analyze("F", 25)` issued from
idle, waiting for `readyok`. -/
def busyState : EngineState :=
  (step (readyState 1 12) (Ev.callAnalyze "F" 25)).1

/-- `destroy()` in normal form: the cleared state plus one `terminate()`
exactly when a worker reference was held. -/
theorem destroy_eq (s : EngineState) :
    destroy s = (destroyedState s,
      if s.hasWorker then [Effect.terminate] else []) := by
  by_cases h : s.hasWorker <;>
    simp [destroy, terminateWorker, destroyedState, h]

/-- `destroy()` fixes its own normal form. -/
theorem destroy_destroyedState (s : EngineState) :
    destroy (destroyedState s) = (destroyedState s, []) := by
  simp [destroy_eq, destroyedState]

/-- Repeated `destroy()` on a state it fixes produces nothing. -/
theorem run_replicate_destroy (n : Nat) (s : EngineState)
    (h : destroy s = (s, [])) :
    run s (List.replicate n Ev.callDestroy) = (s, []) := by
  induction n with
  | zero => simp [run]
  | succ n ih => simp [List.replicate_succ, run, step, h, ih]

/-- C8 (amended): calling `destroy()` `N ≥ 1` times in a row from any
prior state causes exactly one worker `terminate()` call when a worker
reference is held (and none otherwise), and leaves the engine destroyed
(`getIsDestroyed` true, `getIsReady` false) with all pending queues and
callbacks cleared. -/
theorem destroy_idempotent (s : EngineState) (N : Nat) (hN : 1 ≤ N) :
    countTerminates (run s (List.replicate N Ev.callDestroy)).2
      = (if s.hasWorker then 1 else 0) ∧
    (run s (List.replicate N Ev.callDestroy)).1 = destroyedState s ∧
    getIsDestroyed (run s (List.replicate N Ev.callDestroy)).1 = true ∧
    getIsReady (run s (List.replicate N Ev.callDestroy)).1 = false := by
  obtain ⟨n, rfl⟩ : ∃ n, N = n + 1 :=
    ⟨N - 1, (Nat.succ_pred_eq_of_pos hN).symm⟩
  have h1 : run s (List.replicate (n + 1) Ev.callDestroy)
      = (destroyedState s, if s.hasWorker then [Effect.terminate] else []) := by
    simp [List.replicate_succ, run, step, destroy_eq,
          run_replicate_destroy n _ (destroy_destroyedState s)]
  rw [h1]
  refine ⟨?_, rfl, rfl, rfl⟩
  by_cases h : s.hasWorker <;> simp [h, countTerminates]

/-- C8 witness: two `destroy()` calls on a ready engine (which holds a
worker) yield exactly one `terminate()` and a destroyed state. -/
theorem destroy_idempotent_witness :
    1 ≤ 2 ∧
    (countTerminates (run (readyState 3 12) (List.replicate 2 Ev.callDestroy)).2
       = (if (readyState 3 12).hasWorker then 1 else 0) ∧
     (run (readyState 3 12) (List.replicate 2 Ev.callDestroy)).1
       = destroyedState (readyState 3 12) ∧
     getIsDestroyed (run (readyState 3 12) (List.replicate 2 Ev.callDestroy)).1
       = true ∧
     getIsReady (run (readyState 3 12) (List.replicate 2 Ev.callDestroy)).1
       = false) :=
  ⟨by decide, destroy_idempotent (readyState 3 12) 2 (by decide)⟩

/-- C8 counterexample: from the freshly constructed (never-initialized)
state — a prior state the claim quantifies over — two `destroy()` calls
produce zero `terminate()` calls, not exactly one. -/
theorem destroy_without_worker_no_terminate :
    countTerminates (run (initialState 3 12 true true)
      (List.replicate 2 Ev.callDestroy)).2 = 0 := by
  decide

/-- C9: on a destroyed controller, `analyze`, `setOption`, `stop`,
`destroy` and incoming worker lines are silent no-ops (state unchanged,
nothing sent, no callback fired); on the freshly constructed
(uninitialized) controller, `analyze`, `setOption` and `stop` are silent
no-ops and `destroy` sends and emits nothing.  All operations are total
functions of the state, so none can throw. -/
theorem public_ops_noop_when_destroyed_or_uninitialized :
    (∀ (s : EngineState) f d, analyze (destroy s).1 f d = ((destroy s).1, [])) ∧
    (∀ (s : EngineState) n v, setOption (destroy s).1 n v = ((destroy s).1, [])) ∧
    (∀ s : EngineState, stop (destroy s).1 = ((destroy s).1, [])) ∧
    (∀ s : EngineState, destroy (destroy s).1 = ((destroy s).1, [])) ∧
    (∀ (s : EngineState) ts, step (destroy s).1 (Ev.recvLine ts) = ((destroy s).1, [])) ∧
    (∀ R T u e f d, analyze (initialState R T u e) f d = (initialState R T u e, [])) ∧
    (∀ R T u e n v, setOption (initialState R T u e) n v = (initialState R T u e, [])) ∧
    (∀ R T u e, stop (initialState R T u e) = (initialState R T u e, [])) ∧
    (∀ R T u e, (destroy (initialState R T u e)).2 = []) := by
  refine ⟨?_, ?_, ?_, ?_, ?_, ?_, ?_, ?_, ?_⟩ <;> intros <;>
    simp [destroy_eq, destroyedState, analyze, setOption, stop, step,
          sendCmd, initialState]

/-- C10: `init()` is deduplicating — when the engine is already ready
with a live worker it returns immediately, sending nothing and creating
no worker; when an initialization is already in flight (`initPromise`
held) it returns the existing promise, again with no new worker and no
command. -/
theorem init_dedup :
    (∀ s : EngineState, s.isReady = true → s.hasWorker = true →
       s.isDestroyed = false → init s = (s, [])) ∧
    (∀ s : EngineState, s.hasInitPromise = true → init s = (s, [])) := by
  constructor
  · intro s h1 h2 h3
    simp [init, h1, h2, h3]
  · intro s h
    unfold init
    split
    · rfl
    · simp [h]

/-- Overwriting a rank and reading it back. -/
theorem mapGet_mapSet_self (k : Nat) (v : AnalysisLine)
    (m : List (Nat × AnalysisLine)) :
    mapGet k (mapSet k v m) = some v := by
  induction m with
  | nil => simp [mapSet, mapGet]
  | cons p rest ih =>
    obtain ⟨k', v'⟩ := p
    by_cases h : k' = k <;> simp [mapSet, mapGet, h, ih]

/-- C7: on a `bestmove` line carrying a real move, the move is attached
to the pending analysis fields and the analysis-update callback fires if
and only if stable depth was reached this epoch; a no-move sentinel never
fires the callback and only clears the searching flag. -/
theorem bestmove_stability_gate (s : EngineState) (move : String)
    (rest : List String) (hcb : s.hasOnAnalysisUpdate = true) :
    (isNoMoveSentinel move = false →
       parseBestMove s ("bestmove" :: move :: rest) =
         ({ s with
             pendingAnalysisData :=
               { s.pendingAnalysisData with bestMove := some move },
             isAnalyzing := false },
          if s.hasReachedStableDepth then
            [Effect.emitAnalysis
              { s.pendingAnalysisData with bestMove := some move }]
          else [])) ∧
    (isNoMoveSentinel move = true →
       parseBestMove s ("bestmove" :: move :: rest) =
         ({ s with isAnalyzing := false }, [])) := by
  constructor
  · intro h
    by_cases hs : s.hasReachedStableDepth <;>
      simp [parseBestMove, h, hcb, hs]
  · intro h
    simp [parseBestMove, h]

/-- C7 witness: after stability was reached, `bestmove e7e5` publishes
once with the move attached, and `bestmove (none)` publishes nothing. -/
theorem bestmove_stability_gate_witness :
    stableState.hasOnAnalysisUpdate = true ∧
    ((isNoMoveSentinel "e7e5" = false →
        parseBestMove stableState ("bestmove" :: "e7e5" :: []) =
          ({ stableState with
              pendingAnalysisData :=
                { stableState.pendingAnalysisData with bestMove := some "e7e5" },
              isAnalyzing := false },
           if stableState.hasReachedStableDepth then
             [Effect.emitAnalysis
               { stableState.pendingAnalysisData with bestMove := some "e7e5" }]
           else [])) ∧
     (isNoMoveSentinel "e7e5" = true →
        parseBestMove stableState ("bestmove" :: "e7e5" :: []) =
          ({ stableState with isAnalyzing := false }, []))) :=
  ⟨by decide, bestmove_stability_gate stableState "e7e5" [] (by decide)⟩

/-- `parseInfoLine` on an accepted progress event (not a diagnostic
string, not in a transition window, parse succeeded), in closed form:
the per-rank table is updated, rank 1 is mirrored into the pending
fields, stability latches, and the snapshot is emitted exactly under the
publish guard. -/
theorem parseInfoLine_eq (s : EngineState) (ts : List String) (pi : ParsedInfo)
    (h1 : ts.take 2 ≠ ["info", "string"])
    (h2 : s.isWaitingForBestmove = false) (h3 : s.isWaitingForReady = false)
    (hp : parseInfoTokens ts = some pi) :
    parseInfoLine s ts =
      match mapGet 1 (mapSet pi.multipv (lineOf pi) s.multiPvLines) with
      | none =>
        ({ s with multiPvLines := mapSet pi.multipv (lineOf pi) s.multiPvLines },
         [])
      | some ml =>
        if (s.hasReachedStableDepth
              || decide (s.stableDepthThreshold ≤ ml.depth)) &&
           decide (s.multiPV ≤ (mapSet pi.multipv (lineOf pi) s.multiPvLines).length) &&
           allDepthsEq (mapSet pi.multipv (lineOf pi) s.multiPvLines) ml.depth then
          ({ s with
              multiPvLines := mapSet pi.multipv (lineOf pi) s.multiPvLines,
              pendingAnalysisData :=
                { s.pendingAnalysisData with
                  depth := ml.depth, score := ml.score, mate := ml.mate,
                  pv := ml.pv,
                  lines := some (sortByMultipv
                    ((mapSet pi.multipv (lineOf pi) s.multiPvLines).map Prod.snd)) },
              hasReachedStableDepth := true },
           if s.hasOnAnalysisUpdate then
             [Effect.emitAnalysis
               { s.pendingAnalysisData with
                 depth := ml.depth, score := ml.score, mate := ml.mate,
                 pv := ml.pv,
                 lines := some (sortByMultipv
                   ((mapSet pi.multipv (lineOf pi) s.multiPvLines).map Prod.snd)) }]
           else [])
        else
          ({ s with
              multiPvLines := mapSet pi.multipv (lineOf pi) s.multiPvLines,
              pendingAnalysisData :=
                { s.pendingAnalysisData with
                  depth := ml.depth, score := ml.score, mate := ml.mate,
                  pv := ml.pv },
              hasReachedStableDepth :=
                s.hasReachedStableDepth
                  || decide (s.stableDepthThreshold ≤ ml.depth) },
           []) := by
  unfold parseInfoLine
  rw [if_neg h1]
  simp only [h2, h3, Bool.or_self, Bool.false_eq_true, if_false]
  rw [hp]
  rcases hg : mapGet 1 (mapSet pi.multipv (lineOf pi) s.multiPvLines) with _ | ml
  · simp [hg]
  · simp only [hg]
    by_cases hs : s.hasReachedStableDepth
    · by_cases hguard : (decide (s.multiPV ≤ (mapSet pi.multipv (lineOf pi) s.multiPvLines).length) &&
          allDepthsEq (mapSet pi.multipv (lineOf pi) s.multiPvLines) ml.depth) = true
      · simp [hs, hguard]
      · simp [hs, hguard]
    · by_cases hd : s.stableDepthThreshold ≤ ml.depth
      · by_cases hguard : (decide (s.multiPV ≤ (mapSet pi.multipv (lineOf pi) s.multiPvLines).length) &&
            allDepthsEq (mapSet pi.multipv (lineOf pi) s.multiPvLines) ml.depth) = true
        · simp [hs, hd, hguard]
        · simp [hs, hd, hguard]
      · simp [hs, hd]

/-- `analyze` while the controller is already transitioning (waiting for
`readyok` or for a `bestmove`): it only overwrites the pending slot. -/
theorem analyze_busyW_step (s : EngineState) (f : String) (d : Nat)
    (h1 : s.isReady = true) (h2 : s.hasWorker = true) (h3 : s.isDestroyed = false)
    (hW : s.isWaitingForReady = true ∨ s.isWaitingForBestmove = true) :
    analyze s f d = ({ s with pendingAnalysis := some (f, clampDepth d) }, []) := by
  rcases hW with h | h <;> simp [analyze, h1, h2, h3, h]

/-- `analyze` while actively searching (not yet transitioning): it
overwrites the pending slot, sends one `stop` and starts waiting for the
`bestmove`. -/
theorem analyze_searching_step (s : EngineState) (f : String) (d : Nat)
    (h1 : s.isReady = true) (h2 : s.hasWorker = true) (h3 : s.isDestroyed = false)
    (hA : s.isAnalyzing = true) (hb : s.isWaitingForBestmove = false)
    (hr : s.isWaitingForReady = false) :
    analyze s f d = ({ s with pendingAnalysis := some (f, clampDepth d),
                              isWaitingForBestmove := true },
                     [Effect.send "stop"]) := by
  simp [analyze, h1, h2, h3, hA, hb, hr, sendCmd]

/-- Any burst of `analyze` calls while busy leaves the last call's
position in the single pending slot, keeps the controller busy and ready,
and never sends a `position` command. -/
theorem analyze_burst_aux : ∀ (calls : List (String × Nat)) (s : EngineState),
    s.isReady = true → s.hasWorker = true → s.isDestroyed = false →
    (s.isAnalyzing = true ∨ s.isWaitingForBestmove = true ∨
     s.isWaitingForReady = true) →
    (run s (calls.map fun (c : String × Nat) => Ev.callAnalyze c.1 c.2)).1.pendingAnalysis
        = calls.foldl (fun _ c => some (c.1, clampDepth c.2)) s.pendingAnalysis ∧
    (run s (calls.map fun (c : String × Nat) => Ev.callAnalyze c.1 c.2)).1.pendingSetOption
        = s.pendingSetOption ∧
    (run s (calls.map fun (c : String × Nat) => Ev.callAnalyze c.1 c.2)).1.isReady = true ∧
    (run s (calls.map fun (c : String × Nat) => Ev.callAnalyze c.1 c.2)).1.hasWorker = true ∧
    (run s (calls.map fun (c : String × Nat) => Ev.callAnalyze c.1 c.2)).1.isDestroyed = false ∧
    ((run s (calls.map fun (c : String × Nat) => Ev.callAnalyze c.1 c.2)).1.isAnalyzing = true ∨
     (run s (calls.map fun (c : String × Nat) => Ev.callAnalyze c.1 c.2)).1.isWaitingForBestmove = true ∨
     (run s (calls.map fun (c : String × Nat) => Ev.callAnalyze c.1 c.2)).1.isWaitingForReady = true) ∧
    (∀ e ∈ (run s (calls.map fun (c : String × Nat) => Ev.callAnalyze c.1 c.2)).2,
       isPositionCmd e = false) := by
  intro calls
  induction calls with
  | nil =>
    intro s h1 h2 h3 hbusy
    exact ⟨rfl, rfl, h1, h2, h3, hbusy, by simp [run]⟩
  | cons c rest ih =>
    intro s h1 h2 h3 hbusy
    by_cases hW : s.isWaitingForReady = true ∨ s.isWaitingForBestmove = true
    · have hstep := analyze_busyW_step s c.1 c.2 h1 h2 h3 hW
      have ih' := ih { s with pendingAnalysis := some (c.1, clampDepth c.2) }
        h1 h2 h3 (by rcases hbusy with h | h | h <;> simp [h])
      simpa [run, step, hstep] using ih'
    · push_neg at hW
      have hA : s.isAnalyzing = true := by
        rcases hbusy with h | h | h
        · exact h
        · exact absurd h (by simpa using hW.2)
        · exact absurd h (by simpa using hW.1)
      have hstep := analyze_searching_step s c.1 c.2 h1 h2 h3 hA
        (by simpa using hW.2) (by simpa using hW.1)
      have ih' := ih { s with pendingAnalysis := some (c.1, clampDepth c.2),
                              isWaitingForBestmove := true }
        h1 h2 h3 (by simp)
      obtain ⟨p1, p2, p3, p4, p5, p6, p7⟩ := ih'
      have hrun : run s ((c :: rest).map fun (c : String × Nat) => Ev.callAnalyze c.1 c.2)
          = ((run { s with pendingAnalysis := some (c.1, clampDepth c.2),
                           isWaitingForBestmove := true }
                (rest.map fun (c : String × Nat) => Ev.callAnalyze c.1 c.2)).1,
             Effect.send "stop" ::
               (run { s with pendingAnalysis := some (c.1, clampDepth c.2),
                             isWaitingForBestmove := true }
                 (rest.map fun (c : String × Nat) => Ev.callAnalyze c.1 c.2)).2) := by
        simp [run, step, hstep]
      rw [hrun]
      refine ⟨by simpa using p1, p2, p3, p4, p5, p6, ?_⟩
      intro e he
      rcases List.mem_cons.1 he with he | he
      · subst he
        decide
      · exact p7 e he

/-- `readyok` with no queued option and a pending analysis: the position
is set and the search started at the pending depth. -/
theorem handleReadyok_starts_pending (s : EngineState)
    (hso : s.pendingSetOption = none) (fd : String × Nat)
    (hpa : s.pendingAnalysis = some fd)
    (h2 : s.hasWorker = true) (h3 : s.isDestroyed = false) :
    (handleReadyok s).2 =
      [Effect.send ("position fen " ++ fd.1),
       Effect.send ("go depth " ++ toString fd.2)] := by
  by_cases h : s.hasOnReady = true <;>
    simp [handleReadyok, hso, hpa, h, sendCmd, h2, h3]

/-- C1: for any burst of `analyze` calls issued while the engine is busy
(searching, waiting for a `bestmove`, or waiting for `readyok`), no
`position` command is sent during the burst, only the last-issued call
survives in the single pending slot, and — once the engine becomes idle
(on `readyok`, with no queued option) — the position sent is the last
call's, as a `position` command followed by `go` with its clamped
depth. -/
theorem analyze_last_write_wins (s : EngineState)
    (h1 : s.isReady = true) (h2 : s.hasWorker = true) (h3 : s.isDestroyed = false)
    (hbusy : s.isAnalyzing = true ∨ s.isWaitingForBestmove = true ∨
             s.isWaitingForReady = true)
    (calls : List (String × Nat)) (f : String) (d : Nat) :
    (∀ e ∈ (run s ((calls ++ [(f, d)]).map fun (c : String × Nat) => Ev.callAnalyze c.1 c.2)).2,
       isPositionCmd e = false) ∧
    (run s ((calls ++ [(f, d)]).map fun c =>
        Ev.callAnalyze c.1 c.2)).1.pendingAnalysis = some (f, clampDepth d) ∧
    (s.pendingSetOption = none →
       (handleReadyok (run s ((calls ++ [(f, d)]).map fun c =>
           Ev.callAnalyze c.1 c.2)).1).2
         = [Effect.send ("position fen " ++ f),
            Effect.send ("go depth " ++ toString (clampDepth d))]) := by
  obtain ⟨p1, p2, p3, p4, p5, p6, p7⟩ :=
    analyze_burst_aux (calls ++ [(f, d)]) s h1 h2 h3 hbusy
  have hlast : (run s ((calls ++ [(f, d)]).map fun c =>
      Ev.callAnalyze c.1 c.2)).1.pendingAnalysis = some (f, clampDepth d) := by
    rw [p1]
    simp [List.foldl_append]
  refine ⟨p7, hlast, ?_⟩
  intro hnone
  exact handleReadyok_starts_pending _ (by rw [p2]; exact hnone)
    (f, clampDepth d) hlast p4 p5

/-- C1 witness: two superseded calls and a final `analyze("B", 300)`
(clamped to depth 100) on a busy engine. -/
theorem analyze_last_write_wins_witness :
    (∀ e ∈ (run busyState (([("A", 10)] ++ [("B", 300)]).map fun (c : String × Nat) =>
        Ev.callAnalyze c.1 c.2)).2, isPositionCmd e = false) ∧
    (run busyState (([("A", 10)] ++ [("B", 300)]).map fun (c : String × Nat) =>
        Ev.callAnalyze c.1 c.2)).1.pendingAnalysis = some ("B", clampDepth 300) ∧
    (busyState.pendingSetOption = none →
       (handleReadyok (run busyState (([("A", 10)] ++ [("B", 300)]).map fun (c : String × Nat) =>
           Ev.callAnalyze c.1 c.2)).1).2
         = [Effect.send ("position fen " ++ "B"),
            Effect.send ("go depth " ++ toString (clampDepth 300))]) :=
  analyze_last_write_wins busyState (by decide) (by decide) (by decide)
    (Or.inr (Or.inr (by decide))) [("A", 10)] "B" 300

/-- A `setoption` command never collides with `stop` (length). -/
theorem setoption_cmd_ne_stop (name value : String) :
    ("setoption name " ++ name ++ " value " ++ value) ≠ "stop" := by
  intro h
  have hlen := congrArg String.length h
  simp only [String.length_append] at hlen
  have l1 : ("setoption name ").length = 15 := by decide
  have l2 : (" value ").length = 7 := by decide
  have l3 : ("stop").length = 4 := by decide
  omega

/-- A `position` command never collides with `stop` (length). -/
theorem position_cmd_ne_stop (f : String) :
    ("position fen " ++ f) ≠ "stop" := by
  intro h
  have hlen := congrArg String.length h
  simp only [String.length_append] at hlen
  have l1 : ("position fen ").length = 13 := by decide
  have l2 : ("stop").length = 4 := by decide
  omega

/-- `setOption` on an actively searching engine (no pending analysis, a
position recorded in the snapshot fields): the option is queued, the
resume candidate records the position with the hardcoded depth 25, and
exactly one `stop` is sent.  `R` absorbs the immediate internal MultiPV
update for the rank-count option. -/
theorem setOption_searching_eq (s : EngineState) (name value f : String)
    (h1 : s.isReady = true) (h2 : s.hasWorker = true) (h3 : s.isDestroyed = false)
    (h4 : s.isAnalyzing = true) (h5 : s.isWaitingForBestmove = false)
    (h6 : s.isWaitingForReady = false) (h7 : s.pendingAnalysis = none)
    (h8 : s.pendingAnalysisData.fen = some f) :
    ∃ R : Nat, setOption s name value =
      ({ s with multiPV := R, pendingSetOption := some (name, value),
                restoreAnalysisAfterOption := some (f, 25),
                isWaitingForBestmove := true },
       [Effect.send "stop"]) := by
  by_cases hn : name = "MultiPV"
  · rcases hj : jsParseInt value with _ | n
    · exact ⟨s.multiPV,
        by simp [setOption, hn, hj, h1, h2, h3, h4, h5, h6, h7, h8, sendCmd]⟩
    · by_cases hn1 : n ≥ 1
      · exact ⟨n.toNat,
          by simp [setOption, hn, hj, hn1, h1, h2, h3, h4, h5, h6, h7, h8, sendCmd]⟩
      · exact ⟨s.multiPV,
          by simp [setOption, hn, hj, hn1, h1, h2, h3, h4, h5, h6, h7, h8, sendCmd]⟩
  · exact ⟨s.multiPV,
      by simp [setOption, hn, h1, h2, h3, h4, h5, h6, h7, h8, sendCmd]⟩

/-- The full interrupt conversation: `setOption` during a search, the
stop's `bestmove`, and the two synchronizations — its exact command
sequence. -/
theorem setOption_interrupt_trace (s : EngineState) (name value f move : String)
    (h1 : s.isReady = true) (h2 : s.hasWorker = true) (h3 : s.isDestroyed = false)
    (h4 : s.isAnalyzing = true) (h5 : s.isWaitingForBestmove = false)
    (h6 : s.isWaitingForReady = false) (h7 : s.pendingAnalysis = none)
    (h8 : s.pendingAnalysisData.fen = some f) :
    (run s [Ev.callSetOption name value, Ev.recvLine ["bestmove", move],
            Ev.recvLine ["readyok"], Ev.recvLine ["readyok"]]).2 =
      [Effect.send "stop", Effect.send "isready",
       Effect.send ("setoption name " ++ name ++ " value " ++ value),
       Effect.send "isready", Effect.send ("position fen " ++ f),
       Effect.send ("go depth " ++ toString (25 : Nat))] := by
  obtain ⟨R, hstep⟩ :=
    setOption_searching_eq s name value f h1 h2 h3 h4 h5 h6 h7 h8
  have e1 : ("bestmove" : String) ≠ "uciok" := by decide
  have e2 : ("bestmove" : String) ≠ "readyok" := by decide
  have e3 : strStartsWith "bestmove" "error:" = false := by decide
  have e4 : strStartsWith "bestmove" "info" = false := by decide
  have e5 : strStartsWith "bestmove" "bestmove" = true := by decide
  by_cases hOR : s.hasOnReady = true <;>
    simp [run, step, hstep, handleMessage, handleReadyok, sendCmd,
          e1, e2, e3, e4, e5, h2, h3, h7, hOR]

/-- C4: `setOption` issued while a search is actively running sends
exactly one `stop` for the interruption and, absent a superseding
`analyze()`, the original interrupted position is automatically restarted
(`position`, then `go`) after the option has been sent and the engine
re-synchronized. -/
theorem setOption_during_search_restarts (s : EngineState)
    (name value f move : String)
    (h1 : s.isReady = true) (h2 : s.hasWorker = true) (h3 : s.isDestroyed = false)
    (h4 : s.isAnalyzing = true) (h5 : s.isWaitingForBestmove = false)
    (h6 : s.isWaitingForReady = false) (h7 : s.pendingAnalysis = none)
    (h8 : s.pendingAnalysisData.fen = some f) :
    countSendsOf "stop" (run s [Ev.callSetOption name value,
        Ev.recvLine ["bestmove", move], Ev.recvLine ["readyok"],
        Ev.recvLine ["readyok"]]).2 = 1 ∧
    (run s [Ev.callSetOption name value, Ev.recvLine ["bestmove", move],
            Ev.recvLine ["readyok"], Ev.recvLine ["readyok"]]).2 =
      [Effect.send "stop", Effect.send "isready",
       Effect.send ("setoption name " ++ name ++ " value " ++ value),
       Effect.send "isready", Effect.send ("position fen " ++ f),
       Effect.send ("go depth " ++ toString (25 : Nat))] := by
  have htr := setOption_interrupt_trace s name value f move
    h1 h2 h3 h4 h5 h6 h7 h8
  refine ⟨?_, htr⟩
  rw [htr]
  have n1 := setoption_cmd_ne_stop name value
  have n2 := position_cmd_ne_stop f
  have n3 : ("go depth " ++ toString (25 : Nat)) ≠ "stop" := by decide
  simp [countSendsOf, n1, n2, n3]

/-- C4 witness: `setOption("Hash", "256")` on the searching engine,
followed by the stop's `bestmove` and two `readyok`s. -/
theorem setOption_during_search_restarts_witness :
    countSendsOf "stop" (run searchingState [Ev.callSetOption "Hash" "256",
        Ev.recvLine ["bestmove", "e2e4"], Ev.recvLine ["readyok"],
        Ev.recvLine ["readyok"]]).2 = 1 ∧
    (run searchingState [Ev.callSetOption "Hash" "256",
        Ev.recvLine ["bestmove", "e2e4"], Ev.recvLine ["readyok"],
        Ev.recvLine ["readyok"]]).2 =
      [Effect.send "stop", Effect.send "isready",
       Effect.send ("setoption name " ++ "Hash" ++ " value " ++ "256"),
       Effect.send "isready", Effect.send ("position fen " ++ "F"),
       Effect.send ("go depth " ++ toString (25 : Nat))] :=
  setOption_during_search_restarts searchingState "Hash" "256" "F" "e2e4"
    (by decide) (by decide) (by decide) (by decide) (by decide) (by decide)
    (by decide) (by decide)

/-- C5 (amended): the resume candidate saved when an option change
interrupts an active search records the interrupted analysis's position
together with the hardcoded default depth limit 25 — not the original
request's depth limit — and the automatic restart therefore runs
`go depth 25` regardless of the interrupted request's depth. -/
theorem resume_candidate_default_depth (s : EngineState) (name value f : String)
    (h1 : s.isReady = true) (h2 : s.hasWorker = true) (h3 : s.isDestroyed = false)
    (h4 : s.isAnalyzing = true) (h5 : s.isWaitingForBestmove = false)
    (h6 : s.isWaitingForReady = false) (h7 : s.pendingAnalysis = none)
    (h8 : s.pendingAnalysisData.fen = some f) :
    (setOption s name value).1.restoreAnalysisAfterOption = some (f, 25) ∧
    (∀ s' : EngineState, s'.pendingSetOption = none →
       s'.pendingAnalysis = some (f, 25) → s'.hasWorker = true →
       s'.isDestroyed = false →
       (handleReadyok s').2 =
         [Effect.send ("position fen " ++ f),
          Effect.send ("go depth " ++ toString (25 : Nat))]) := by
  obtain ⟨R, hstep⟩ :=
    setOption_searching_eq s name value f h1 h2 h3 h4 h5 h6 h7 h8
  constructor
  · rw [hstep]
  · intro s' hso hpa hw hd
    exact handleReadyok_starts_pending s' hso (f, 25) hpa hw hd

/-- C5 witness: on the searching engine (original depth limit 40) the
resume candidate holds depth 25, and a readied controller with that
candidate restarts with `go depth 25`. -/
theorem resume_candidate_default_depth_witness :
    (setOption searchingState "Hash" "256").1.restoreAnalysisAfterOption
      = some ("F", 25) ∧
    (∀ s' : EngineState, s'.pendingSetOption = none →
       s'.pendingAnalysis = some ("F", 25) → s'.hasWorker = true →
       s'.isDestroyed = false →
       (handleReadyok s').2 =
         [Effect.send ("position fen " ++ "F"),
          Effect.send ("go depth " ++ toString (25 : Nat))]) :=
  resume_candidate_default_depth searchingState "Hash" "256" "F"
    (by decide) (by decide) (by decide) (by decide) (by decide) (by decide)
    (by decide) (by decide)

/-- C5 counterexample: the interrupted analysis was requested with depth
limit 40 (`go depth 40` was sent), yet the resume candidate stores depth
25 and the automatic restart sends `go depth 25`, so "the restart uses
the original request's depth limit" fails as stated. -/
theorem resume_drops_original_depth :
    (run (initialState 1 12 true true) (resumeDepthTrace.take 7)).1.restoreAnalysisAfterOption
      = some ("F", 25) ∧
    (run (initialState 1 12 true true) resumeDepthTrace).2 =
      [Effect.createWorker, Effect.send "uci",
       Effect.send "setoption name MultiPV value 1", Effect.send "isready",
       Effect.send "isready", Effect.send "position fen F",
       Effect.send "go depth 40", Effect.send "stop", Effect.send "isready",
       Effect.send "setoption name Hash value 256", Effect.send "isready",
       Effect.send "position fen F", Effect.send "go depth 25"] := by
  decide

/-- C6 (amended): progress lines received while waiting for a `bestmove`
or for `readyok` are discarded entirely (no state change, no effect); a
`bestmove` received while waiting for a `bestmove` only advances the
stop/sync handshake (flags flip, one `isready`, nothing published); a
`bestmove` received when not waiting for one is handled by
`parseBestMove` (and so may publish even while waiting for `readyok`). -/
theorem transition_window_discards :
    (∀ (s : EngineState) (ts : List String),
       s.isWaitingForBestmove = true ∨ s.isWaitingForReady = true →
       parseInfoLine s ts = (s, [])) ∧
    (∀ (s : EngineState) (rest : List String), s.isWaitingForBestmove = true →
       handleMessage s ("bestmove" :: rest) =
         ({ s with isWaitingForBestmove := false, isAnalyzing := false,
                   isWaitingForReady := true },
          sendCmd s "isready")) ∧
    (∀ (s : EngineState) (rest : List String), s.isWaitingForBestmove = false →
       handleMessage s ("bestmove" :: rest) =
         parseBestMove s ("bestmove" :: rest)) := by
  refine ⟨?_, ?_, ?_⟩
  · intro s ts h
    rcases h with h | h <;> simp [parseInfoLine, h]
  · intro s rest h
    simp [handleMessage, h, strStartsWith, sendCmd]
  · intro s rest h
    simp [handleMessage, h, strStartsWith]

/-- C6 witness: a progress line while stopping is dropped; the `bestmove`
acknowledging the stop only advances the handshake; a `bestmove` when not
waiting for one goes to `parseBestMove`. -/
theorem transition_window_discards_witness :
    parseInfoLine stoppingState ["info", "depth", "13", "score", "cp", "1"] =
      (stoppingState, []) ∧
    handleMessage stoppingState ("bestmove" :: ["e2e4"]) =
      ({ stoppingState with isWaitingForBestmove := false, isAnalyzing := false,
                            isWaitingForReady := true },
       sendCmd stoppingState "isready") ∧
    handleMessage staleState ("bestmove" :: ["d2d4"]) =
      parseBestMove staleState ("bestmove" :: ["d2d4"]) :=
  ⟨transition_window_discards.1 stoppingState _ (Or.inl (by decide)),
   transition_window_discards.2.1 stoppingState ["e2e4"] (by decide),
   transition_window_discards.2.2 staleState ["d2d4"] (by decide)⟩

/-- C6 counterexample: in `staleState` the controller is waiting for
`readyok` (the stop's `bestmove` was already consumed), yet a further
`bestmove` line in that window is published to the analysis callback,
because only the `isWaitingForBestmove` flag guards `parseBestMove`. -/
theorem stale_bestmove_publishes :
    staleState.isWaitingForReady = true ∧
    staleState.isWaitingForBestmove = false ∧
    countEmits (step staleState (Ev.recvLine ["bestmove", "d2d4"])).2 = 1 := by
  decide

/-- C2 (amended): while stability has not yet been reached this epoch, a
progress event whose rank-1 depth is below the threshold `T` never
triggers the analysis-update callback; the first event with rank-1 depth
`≥ T`, with all configured ranks present at that depth, triggers exactly
one callback; the stability flag is sticky and reset (together with the
rank table) when a new analysis starts, so once it is set a later event
can publish regardless of its depth. -/
theorem stability_gate :
    (∀ (s : EngineState) (ts : List String) (pi : ParsedInfo),
       s.hasReachedStableDepth = false → parseInfoTokens ts = some pi →
       pi.multipv = 1 → pi.depth < s.stableDepthThreshold →
       (parseInfoLine s ts).2 = []) ∧
    (∀ (s : EngineState) (ts : List String) (pi : ParsedInfo),
       s.hasReachedStableDepth = false → s.isWaitingForBestmove = false →
       s.isWaitingForReady = false → ts.take 2 ≠ ["info", "string"] →
       parseInfoTokens ts = some pi → pi.multipv = 1 →
       s.stableDepthThreshold ≤ pi.depth →
       allDepthsEq (mapSet pi.multipv (lineOf pi) s.multiPvLines) pi.depth = true →
       s.multiPV ≤ (mapSet pi.multipv (lineOf pi) s.multiPvLines).length →
       s.hasOnAnalysisUpdate = true →
       countEmits (parseInfoLine s ts).2 = 1) ∧
    (∀ (s : EngineState) (fd : String × Nat),
       s.pendingSetOption = none → s.pendingAnalysis = some fd →
       (handleReadyok s).1.hasReachedStableDepth = false ∧
       (handleReadyok s).1.multiPvLines = []) := by
  refine ⟨?_, ?_, ?_⟩
  · intro s ts pi h0 hp hm hd
    by_cases h1 : ts.take 2 = ["info", "string"]
    · simp [parseInfoLine, h1]
    · by_cases h2 : s.isWaitingForBestmove = true
      · simp [parseInfoLine, h1, h2]
      · by_cases h3 : s.isWaitingForReady = true
        · simp [parseInfoLine, h1, h3]
        · rw [parseInfoLine_eq s ts pi h1
            (by simpa using h2) (by simpa using h3) hp]
          rw [hm, mapGet_mapSet_self]
          have hnot : ¬ (s.stableDepthThreshold ≤ (lineOf pi).depth) := by
            simp only [lineOf]
            omega
          simp [h0, hnot]
  · intro s ts pi h0 h2 h3 h1 hp hm hT hall hlen hcb
    rw [parseInfoLine_eq s ts pi h1 h2 h3 hp]
    rw [hm] at hall hlen ⊢
    rw [mapGet_mapSet_self]
    have hT' : s.stableDepthThreshold ≤ (lineOf pi).depth := by
      simpa [lineOf] using hT
    have hall' : allDepthsEq (mapSet 1 (lineOf pi) s.multiPvLines)
        (lineOf pi).depth = true := by
      simpa [lineOf] using hall
    simp [h0, hT', hall', hlen, hcb, countEmits]
  · intro s fd hso hpa
    by_cases h : s.hasOnReady = true <;>
      simp [handleReadyok, hso, hpa, h]

/-- C2 witness: a depth-6 event before stability (threshold 12) emits
nothing; a depth-12 rank-1 event with the single configured rank present

emits exactly once; starting a queued analysis resets the sticky flag and
the rank table. -/
theorem stability_gate_witness :
    (searchingState.hasReachedStableDepth = false ∧
     parseInfoTokens ["info", "depth", "6", "score", "cp", "20"] =
       some ⟨6, 1, some 20, none, []⟩ ∧
     (6 : Nat) < searchingState.stableDepthThreshold ∧
     (parseInfoLine searchingState
        ["info", "depth", "6", "score", "cp", "20"]).2 = []) ∧
    (parseInfoTokens ["info", "depth", "12", "multipv", "1", "score", "cp", "31"] =
       some ⟨12, 1, some 31, none, []⟩ ∧
     searchingState.stableDepthThreshold ≤ 12 ∧
     countEmits (parseInfoLine searchingState
        ["info", "depth", "12", "multipv", "1", "score", "cp", "31"]).2 = 1) ∧
    (queuedState.pendingSetOption = none ∧
     queuedState.pendingAnalysis = some ("G", 30) ∧
     (handleReadyok queuedState).1.hasReachedStableDepth = false ∧
     (handleReadyok queuedState).1.multiPvLines = []) :=
  ⟨⟨by decide, by decide, by decide,
    stability_gate.1 searchingState ["info", "depth", "6", "score", "cp", "20"]
      ⟨6, 1, some 20, none, []⟩ (by decide) (by decide) (by decide) (by decide)⟩,
   ⟨by decide, by decide,
    stability_gate.2.1 searchingState
      ["info", "depth", "12", "multipv", "1", "score", "cp", "31"]
      ⟨12, 1, some 31, none, []⟩ (by decide) (by decide) (by decide) (by decide)
      (by decide) (by decide) (by decide) (by decide) (by decide) (by decide)⟩,
   ⟨by decide, by decide,
    stability_gate.2.2 queuedState ("G", 30) (by decide) (by decide)⟩⟩

/-- C2 counterexample: after stability was reached at depth 12 (sticky
flag set), a progress event whose depth 5 is below the threshold 12 still
triggers the analysis-update callback, so "an event with depth < T never
triggers the callback" fails as stated. -/
theorem low_depth_event_emits_after_stability :
    (parseInfoTokens lowDepthTokens).map ParsedInfo.depth = some 5 ∧
    5 < stableState.stableDepthThreshold ∧
    stableState.hasReachedStableDepth = true ∧
    countEmits (step stableState (Ev.recvLine lowDepthTokens)).2 = 1 := by
  decide

/-- C3 (amended): the analysis-update callback fires with a lines array
only when at least `R` distinct ranks (the configured MultiPV count) are
held in the per-rank table and every held line shares rank 1's depth; a
partial rank set (fewer than `R` ranks) never publishes.  (More than `R`
held ranks also publish, so "exactly `R`" does not hold.) -/
theorem rank_target_gate :
    (∀ (s : EngineState) (ts : List String) (pi : ParsedInfo),
       parseInfoTokens ts = some pi →
       (parseInfoLine s ts).2 ≠ [] →
       s.multiPV ≤ (mapSet pi.multipv (lineOf pi) s.multiPvLines).length ∧
       ∃ ml, mapGet 1 (mapSet pi.multipv (lineOf pi) s.multiPvLines) = some ml ∧
         allDepthsEq (mapSet pi.multipv (lineOf pi) s.multiPvLines) ml.depth
           = true) ∧
    (∀ (s : EngineState) (ts : List String) (pi : ParsedInfo),
       parseInfoTokens ts = some pi →
       (mapSet pi.multipv (lineOf pi) s.multiPvLines).length < s.multiPV →
       (parseInfoLine s ts).2 = []) := by
  constructor
  · intro s ts pi hp hne
    by_cases h1 : ts.take 2 = ["info", "string"]
    · simp [parseInfoLine, h1] at hne
    · by_cases h2 : s.isWaitingForBestmove = true
      · simp [parseInfoLine, h1, h2] at hne
      · by_cases h3 : s.isWaitingForReady = true
        · simp [parseInfoLine, h1, h3] at hne
        · rw [parseInfoLine_eq s ts pi h1
            (by simpa using h2) (by simpa using h3) hp] at hne
          rcases hg : mapGet 1 (mapSet pi.multipv (lineOf pi) s.multiPvLines)
            with _ | ml
          · rw [hg] at hne
            simp at hne
          · rw [hg] at hne
            by_cases hguard :
              ((s.hasReachedStableDepth
                  || decide (s.stableDepthThreshold ≤ ml.depth)) &&
               decide (s.multiPV ≤
                 (mapSet pi.multipv (lineOf pi) s.multiPvLines).length) &&
               allDepthsEq (mapSet pi.multipv (lineOf pi) s.multiPvLines)
                 ml.depth) = true
            · have h := hguard
              simp only [Bool.and_eq_true, decide_eq_true_eq] at h
              exact ⟨h.1.2, ml, rfl, h.2⟩
            · simp [hguard] at hne
  · intro s ts pi hp hlen
    by_cases h1 : ts.take 2 = ["info", "string"]
    · simp [parseInfoLine, h1]
    · by_cases h2 : s.isWaitingForBestmove = true
      · simp [parseInfoLine, h1, h2]
      · by_cases h3 : s.isWaitingForReady = true
        · simp [parseInfoLine, h1, h3]
        · rw [parseInfoLine_eq s ts pi h1
            (by simpa using h2) (by simpa using h3) hp]
          rcases hg : mapGet 1 (mapSet pi.multipv (lineOf pi) s.multiPvLines)
            with _ | ml
          · simp
          · have hnot : ¬ (s.multiPV ≤
                (mapSet pi.multipv (lineOf pi) s.multiPvLines).length) := by
              omega
            simp [hnot]

/-- C3 witness: in `overfullState` (rank target 2) the publishing event
holds ranks 1–3 all at depth 3, and the publish guard facts hold; with
rank target 3 and only one held rank nothing is published. -/
theorem rank_target_gate_witness :
    (parseInfoTokens thirdRankTokens = some ⟨3, 3, some 10, none, []⟩ ∧
     (parseInfoLine overfullState thirdRankTokens).2 ≠ [] ∧
     (overfullState.multiPV ≤
        (mapSet 3 (lineOf ⟨3, 3, some 10, none, []⟩)
          overfullState.multiPvLines).length ∧
      ∃ ml, mapGet 1 (mapSet 3 (lineOf ⟨3, 3, some 10, none, []⟩)
              overfullState.multiPvLines) = some ml ∧
        allDepthsEq (mapSet 3 (lineOf ⟨3, 3, some 10, none, []⟩)
          overfullState.multiPvLines) ml.depth = true)) ∧
    (parseInfoTokens ["info", "depth", "5", "score", "cp", "30"] =
       some ⟨5, 1, some 30, none, []⟩ ∧
     (mapSet 1 (lineOf ⟨5, 1, some 30, none, []⟩)
        (readyState 3 12).multiPvLines).length < (readyState 3 12).multiPV ∧
     (parseInfoLine (readyState 3 12)
        ["info", "depth", "5", "score", "cp", "30"]).2 = []) :=
  ⟨⟨by decide, by decide,
    rank_target_gate.1 overfullState thirdRankTokens ⟨3, 3, some 10, none, []⟩
      (by decide) (by decide)⟩,
   ⟨by decide, by decide,
    rank_target_gate.2 (readyState 3 12) ["info", "depth", "5", "score", "cp", "30"]
      ⟨5, 1, some 30, none, []⟩ (by decide) (by decide)⟩⟩

/-- C3 counterexample: with rank target `R = 2`, a third rank at the same
depth still publishes — the callback fires with 3 held ranks and a
3-element lines array, so "exactly `R` distinct ranks" fails as stated
(the guard is `size ≥ multiPV`, not equality). -/
theorem rank_overflow_emits :
    overfullState.multiPV = 2 ∧
    countEmits (step overfullState (Ev.recvLine thirdRankTokens)).2 = 1 ∧
    ((step overfullState (Ev.recvLine thirdRankTokens)).1.pendingAnalysisData.lines.map
       List.length) = some 3 ∧
    (step overfullState (Ev.recvLine thirdRankTokens)).1.multiPvLines.length = 3 := by
  decide

/-- C10 witness: the ready engine and an in-flight engine both get
`init()` as a no-op. -/
theorem init_dedup_witness :
    ((readyState 1 12).isReady = true ∧ (readyState 1 12).hasWorker = true ∧
     (readyState 1 12).isDestroyed = false ∧
     init (readyState 1 12) = (readyState 1 12, [])) ∧
    ((readyState 1 12).hasInitPromise = true ∧
     init (readyState 1 12) = (readyState 1 12, [])) :=
  ⟨⟨by decide, by decide, by decide,
    init_dedup.1 (readyState 1 12) (by decide) (by decide) (by decide)⟩,
   ⟨by decide, init_dedup.2 (readyState 1 12) (by decide)⟩⟩

end SfEval
